import Mathlib

/-!
Verification development for `simple_model_counter.py`, a tool that counts
dbt models from `run_results.json` report files.

The Python source is shallowly embedded: JSON records become Lean structures
with `Option` fields (a `none` field models an absent key, so Python's
`dict.get(k, default)` becomes `Option.getD`), floating point execution
times become exact rationals, `round(x, n)` becomes `pyRound` (round half
to even on the scaled value, as Python's `round` does), and fallible file
reading becomes an `Option ReportData` input.
-/

namespace SimpleModelCounter

/-- Python's `str.startswith(p)`, computed on the character list. -/
def startswith (s p : String) : Bool :=
  p.toList.isPrefixOf s.toList

/-- Replace every occurrence of the character `c` by `rep` in a character
list.  Python's `str.replace(pat, rep)` restricted to a one-character
pattern, which is the only use in the source (`.replace('Z', '+00:00')`). -/
def replaceChar (c : Char) (rep : List Char) : List Char → List Char
  | [] => []
  | x :: rest => (if x = c then rep else [x]) ++ replaceChar c rep rest

/-- Python's `str.endswith(p)`, computed on the reversed character list. -/
def endswith (s p : String) : Bool :=
  p.toList.reverse.isPrefixOf s.toList.reverse

/-- One entry of the report's `results` list.  Each field is `Option`al
because the tool reads every field with `dict.get` and a default. -/
structure ResultRecord where
  unique_id : Option String
  status : Option String
  execution_time : Option ℚ
deriving DecidableEq

/-- The optional `metadata` object of a report file. -/
structure Metadata where
  generated_at : Option String
  dbt_version : Option String
  invocation_id : Option String
deriving DecidableEq

/-- A successfully JSON-parsed report file: optional `metadata` object and
optional `results` array (`data.get('metadata', {})`, `data.get('results', [])`). -/
structure ReportData where
  metadata : Option Metadata
  results : Option (List ResultRecord)
deriving DecidableEq

/-- The running tallies of the loop in `count_models`
(`total_models`, `successful_models`, `failed_models`, `execution_times`). -/
structure Counts where
  total : ℕ
  succ : ℕ
  failed : ℕ
  times : List ℚ
deriving DecidableEq

/-- One iteration of the `for result in results` loop of `count_models`
(src lines 79–95): filter on the `model.` identifier tag, classify by
status, and collect strictly positive execution times. -/
def processRecord (c : Counts) (r : ResultRecord) : Counts :=
  let unique_id := r.unique_id.getD ""
  if startswith unique_id "model." then
    let status := r.status.getD "unknown"
    let c1 : Counts := { c with total := c.total + 1 }
    let c2 : Counts :=
      if status = "success" then { c1 with succ := c1.succ + 1 }
      else { c1 with failed := c1.failed + 1 }
    let execution_time := r.execution_time.getD 0
    if execution_time > 0 then { c2 with times := c2.times ++ [execution_time] }
    else c2
  else c

/-- The whole counting loop of `count_models` over the results list. -/
def countRecords (results : List ResultRecord) : Counts :=
  results.foldl processRecord ⟨0, 0, 0, []⟩

/-- Round a rational to the nearest integer, ties to even. -/
def roundHalfEven (x : ℚ) : ℤ :=
  let fl : ℤ := ⌊x⌋
  let frac : ℚ := x - (fl : ℚ)
  if frac < 1/2 then fl
  else if 1/2 < frac then fl + 1
  else if fl % 2 = 0 then fl else fl + 1

/-- Python's `round(q, ndigits)`: round `q * 10^ndigits` to the nearest
integer, ties to even, then scale back. -/
def pyRound (q : ℚ) (ndigits : ℕ) : ℚ :=
  (roundHalfEven (q * (10 : ℚ) ^ ndigits) : ℚ) / (10 : ℚ) ^ ndigits

/-- A proleptic-Gregorian leap year, as Python's `datetime` uses. -/
def isLeap (y : ℕ) : Bool :=
  y % 4 = 0 && (y % 100 ≠ 0 || y % 400 = 0)

/-- Days in a month of the proleptic Gregorian calendar. -/
def daysInMonth (y m : ℕ) : ℕ :=
  if m = 2 then (if isLeap y then 29 else 28)
  else if m = 4 ∨ m = 6 ∨ m = 9 ∨ m = 11 then 30
  else 31

/-- The calendar date carried by a parsed `datetime`; the tool only ever
uses `.date()` of the parse result. -/
structure PyDate where
  year : ℕ
  month : ℕ
  day : ℕ
deriving DecidableEq

/-- Numeric value of a decimal digit character. -/
def digitVal (c : Char) : ℕ := c.toNat - 48

/-- Value of a two-digit character pair. -/
def twoVal (a b : Char) : ℕ := digitVal a * 10 + digitVal b

/-- A `±HH:MM` UTC-offset suffix: sign, two digit pairs separated by a
colon, total magnitude strictly below 24 hours (`timezone` range check). -/
def validOffset : List Char → Bool
  | [s, h1, h2, ':', m1, m2] =>
    (s = '+' || s = '-') && h1.isDigit && h2.isDigit && m1.isDigit && m2.isDigit &&
      decide (twoVal h1 h2 * 60 + twoVal m1 m2 < 24 * 60)
  | _ => false

/-- After the seconds: end of string, a 3- or 6-digit fraction, or an offset. -/
def afterSecond : List Char → Bool
  | [] => true
  | '.' :: rest =>
    let digs := rest.takeWhile Char.isDigit
    let tail := rest.dropWhile Char.isDigit
    (digs.length = 3 || digs.length = 6) && (tail = [] || validOffset tail)
  | cs => validOffset cs

/-- After the minutes: end of string, `:SS…`, or an offset. -/
def afterMinute : List Char → Bool
  | [] => true
  | ':' :: s1 :: s2 :: rest =>
    s1.isDigit && s2.isDigit && decide (twoVal s1 s2 ≤ 59) && afterSecond rest
  | cs => validOffset cs

/-- After the hours: end of string, `:MM…`, or an offset. -/
def afterHour : List Char → Bool
  | [] => true
  | ':' :: m1 :: m2 :: rest =>
    m1.isDigit && m2.isDigit && decide (twoVal m1 m2 ≤ 59) && afterMinute rest
  | cs => validOffset cs

/-- The time-of-day part `HH[:MM[:SS[.fff[fff]]]][±HH:MM]`. -/
def validTime : List Char → Bool
  | h1 :: h2 :: rest =>
    h1.isDigit && h2.isDigit && decide (twoVal h1 h2 ≤ 23) && afterHour rest
  | _ => false

/-- Models Python's `datetime.fromisoformat` on the extended ISO-8601 forms
this tool encounters: `YYYY-MM-DD`, optionally followed by a one-character
separator and a time `HH[:MM[:SS[.fff[fff]]]][±HH:MM]`.  Returns the
calendar date (the only part `count_models` uses) or `none` on the
`ValueError` the Python call raises for anything else. -/
def fromisoformat (s : String) : Option PyDate :=
  match s.toList with
  | y1 :: y2 :: y3 :: y4 :: '-' :: m1 :: m2 :: '-' :: d1 :: d2 :: rest =>
    if ([y1, y2, y3, y4, m1, m2, d1, d2].all Char.isDigit) then
      let y := digitVal y1 * 1000 + digitVal y2 * 100 + digitVal y3 * 10 + digitVal y4
      let m := twoVal m1 m2
      let d := twoVal d1 d2
      if 1 ≤ y ∧ 1 ≤ m ∧ m ≤ 12 ∧ 1 ≤ d ∧ d ≤ daysInMonth y m then
        match rest with
        | [] => some ⟨y, m, d⟩
        | _sep :: timeChars => if validTime timeChars then some ⟨y, m, d⟩ else none
      else none
    else none
  | _ => none

/-- Left-pad a numeral to two digits. -/
def pad2 (n : ℕ) : String :=
  if n < 10 then "0" ++ toString n else toString n

/-- Left-pad a numeral to four digits. -/
def pad4 (n : ℕ) : String :=
  if n < 10 then "000" ++ toString n
  else if n < 100 then "00" ++ toString n
  else if n < 1000 then "0" ++ toString n
  else toString n

/-- Python's `date.isoformat()`: `YYYY-MM-DD`. -/
def dateIsoformat (d : PyDate) : String :=
  pad4 d.year ++ "-" ++ pad2 d.month ++ "-" ++ pad2 d.day

/-- The `run_date` derivation of `count_models` (src lines 103–110): skip
the `'unknown'` sentinel, replace every `Z` by `+00:00`, parse, take the
date; any parse failure falls back to `'unknown'`. -/
def run_date_of (generated_at : String) : String :=
  if generated_at ≠ "unknown" then
    match fromisoformat (String.mk (replaceChar 'Z' "+00:00".toList generated_at.toList)) with
    | some d => dateIsoformat d
    | none => "unknown"
  else "unknown"

/-- The dictionary `count_models` returns on success. -/
structure RunSummary where
  file_path : String
  run_date : String
  run_timestamp : String
  dbt_version : String
  invocation_id : String
  total_models : ℕ
  successful_models : ℕ
  failed_models : ℕ
  success_rate : ℚ
  avg_execution_time : ℚ
  total_execution_time : ℚ
deriving DecidableEq

/-- `count_models(file_path)`.  The `content` argument models the outcome of
`open` + `json.load`: `none` when the file is missing or its JSON is
malformed (the two caught exceptions, src lines 57–65, which make the
function return `None`), `some data` when top-level parsing succeeds. -/
def count_models (file_path : String) (content : Option ReportData) : Option RunSummary :=
  match content with
  | none => none
  | some data =>
    let metadata := data.metadata.getD ⟨none, none, none⟩
    let results := data.results.getD []
    let c := countRecords results
    let success_rate : ℚ :=
      if c.total > 0 then (c.succ : ℚ) / (c.total : ℚ) * 100 else 0
    let avg_execution_time : ℚ :=
      if c.times.isEmpty then 0 else c.times.sum / (c.times.length : ℚ)
    let total_execution_time : ℚ := c.times.sum
    let generated_at := metadata.generated_at.getD "unknown"
    some {
      file_path := file_path
      run_date := run_date_of generated_at
      run_timestamp := generated_at
      dbt_version := metadata.dbt_version.getD "unknown"
      invocation_id := metadata.invocation_id.getD "unknown"
      total_models := c.total
      successful_models := c.succ
      failed_models := c.failed
      success_rate := pyRound success_rate 2
      avg_execution_time := pyRound avg_execution_time 3
      total_execution_time := pyRound total_execution_time 3 }

/-- Split a character list at a separator character (Python's `str.split`). -/
def splitOnChar (c : Char) : List Char → List (List Char)
  | [] => [[]]
  | x :: rest =>
    match splitOnChar c rest with
    | [] => if x = c then [[], []] else [[x]]
    | h :: t => if x = c then [] :: h :: t else (x :: h) :: t

/-- Glob pattern 1, `os.path.join(path, "run_results.json")`: the file named
exactly `run_results.json` at the top of the directory.  `rel` is a path
relative to the searched directory. -/
def matchesPattern1 (rel : String) : Bool :=
  rel.toList = "run_results.json".toList

/-- Glob pattern 2, `os.path.join(path, "**/run_results.json")` with
`recursive=True`: a file named `run_results.json` at any subtree depth
(`**` matches zero or more directories, none of them hidden). -/
def matchesPattern2 (rel : String) : Bool :=
  match (splitOnChar '/' rel.toList).reverse with
  | [] => false
  | base :: dirs =>
    base = "run_results.json".toList && dirs.all (fun seg => seg.head? ≠ some '.')

/-- Glob pattern 3, `os.path.join(path, "run_results*.json")`: a direct
entry whose name is `run_results`, then anything, then `.json`. -/
def matchesPattern3 (rel : String) : Bool :=
  !rel.toList.contains '/' &&
    startswith rel "run_results" &&
    endswith rel ".json" &&
    decide ("run_results".length + ".json".length ≤ rel.length)

/-- `os.path.join(path, rel)` for a directory `path` with no trailing slash. -/
def joinPath (path rel : String) : String :=
  path ++ "/" ++ rel

/-- What the path argument names on disk, as tested by `os.path.isfile` /
`os.path.isdir`. -/
inductive PathKind
  | file
  | directory
  | missing
deriving DecidableEq

/-- `find_run_results_files(path)` (src lines 18–52).  The filesystem is
abstracted as `entries`, the list of file paths under `path` relative to it
(only consulted in the directory case).  Directory case: concatenate the
matches of the three glob patterns, drop duplicates (`list(set(...))`) and
return them sorted. -/
def find_run_results_files (path : String) (kind : PathKind) (entries : List String) :
    List String :=
  match kind with
  | .file => if endswith path ".json" then [path] else []
  | .directory =>
    let m1 := entries.filter matchesPattern1
    let m2 := entries.filter matchesPattern2
    let m3 := entries.filter matchesPattern3
    let files := (m1 ++ m2 ++ m3).map (joinPath path)
    List.insertionSort (· ≤ ·) files.dedup
  | .missing => []

/-- The per-file loop of `main` (src lines 220–229): run `count_models` on
every discovered file and keep the successful summaries, in order. -/
def processFiles (files : List String) (read : String → Option ReportData) :
    List RunSummary :=
  files.filterMap (fun fp => count_models fp (read fp))

/-- The three ways `main` can end (src lines 209–262): abort because
discovery found nothing, abort because no file produced a summary, or print
a report built from the collected summaries. -/
inductive MainOutcome
  | noFilesFound
  | noValidFiles
  | ok (stats : List RunSummary)
deriving DecidableEq

/-- The control flow of `main` after argument parsing: `read` models the
filesystem content seen by `count_models` for each path. -/
def mainOutcome (files : List String) (read : String → Option ReportData) : MainOutcome :=
  if files.isEmpty then .noFilesFound
  else
    let all_stats := processFiles files read
    if all_stats.isEmpty then .noValidFiles else .ok all_stats

/-- The process exit status of each outcome (`sys.exit(1)` on the two
failure branches, implicit 0 otherwise). -/
def exitCode : MainOutcome → ℕ
  | .noFilesFound => 1
  | .noValidFiles => 1
  | .ok _ => 0

/-- The diagnostic printed on each aborting branch of `main`. -/
def outcomeMessage : MainOutcome → Option String
  | .noFilesFound => some "No run_results.json files found."
  | .noValidFiles => some "No valid run_results.json files could be processed."
  | .ok _ => none

/-- The report of the spec's worked example: three models, the first two
successful with execution times 1.0s and 2.0s, the third failed with
execution time 0. -/
def exampleReport : ReportData :=
  ⟨none, some
    [⟨some "model.alpha", some "success", some 1⟩,
     ⟨some "model.beta", some "success", some 2⟩,
     ⟨some "model.gamma", some "error", some 0⟩]⟩

/-- The summary `count_models` computes for `exampleReport`. -/
def exampleSummary : RunSummary :=
  ⟨"f", "unknown", "unknown", "unknown", "unknown", 3, 2, 1, 66.67, 1.5, 3⟩

/-! ## Helper lemmas -/

theorem processRecord_of_not_model (c : Counts) (r : ResultRecord)
    (h : startswith (r.unique_id.getD "") "model." = false) :
    processRecord c r = c := by
  simp [processRecord, h]

theorem processRecord_total_eq (c : Counts) (r : ResultRecord)
    (h : c.total = c.succ + c.failed) :
    (processRecord c r).total = (processRecord c r).succ + (processRecord c r).failed := by
  simp only [processRecord]
  split
  · split <;> split <;> simp <;> omega
  · exact h

theorem processRecord_succ_le_total (c : Counts) (r : ResultRecord)
    (h : c.succ ≤ c.total) :
    (processRecord c r).succ ≤ (processRecord c r).total := by
  simp only [processRecord]
  split
  · split <;> split <;> simp <;> omega
  · exact h

theorem foldl_processRecord_inv (P : Counts → Prop)
    (step : ∀ c r, P c → P (processRecord c r)) :
    ∀ (l : List ResultRecord) (c : Counts), P c → P (l.foldl processRecord c)
  | [], _, h => h
  | r :: rest, c, h => foldl_processRecord_inv P step rest (processRecord c r) (step c r h)

theorem countRecords_total_eq (l : List ResultRecord) :
    (countRecords l).total = (countRecords l).succ + (countRecords l).failed :=
  foldl_processRecord_inv (fun c => c.total = c.succ + c.failed)
    processRecord_total_eq l ⟨0, 0, 0, []⟩ rfl

theorem countRecords_succ_le_total (l : List ResultRecord) :
    (countRecords l).succ ≤ (countRecords l).total :=
  foldl_processRecord_inv (fun c => c.succ ≤ c.total)
    processRecord_succ_le_total l ⟨0, 0, 0, []⟩ (Nat.le_refl 0)

theorem foldl_processRecord_of_no_model (l : List ResultRecord) (c : Counts)
    (h : ∀ x ∈ l, startswith (x.unique_id.getD "") "model." = false) :
    l.foldl processRecord c = c := by
  induction l generalizing c with
  | nil => rfl
  | cons r rest ih =>
    rw [List.foldl_cons, processRecord_of_not_model c r (h r (List.mem_cons_self r rest))]
    exact ih c (fun x hx => h x (List.mem_cons_of_mem r hx))

theorem count_models_exampleReport :
    count_models "f" (some exampleReport) = some exampleSummary := by
  have hc : countRecords
      [⟨some "model.alpha", some "success", some 1⟩,
       ⟨some "model.beta", some "success", some 2⟩,
       ⟨some "model.gamma", some "error", some 0⟩] = ⟨3, 2, 1, [1, 2]⟩ := by decide
  have hrd : run_date_of "unknown" = "unknown" := rfl
  simp only [count_models, exampleReport, exampleSummary, Option.getD, hc, hrd,
    Option.some.injEq, RunSummary.mk.injEq]
  norm_num [pyRound, roundHalfEven]

/-- C1: for every report whose top-level parse succeeds (`count_models`
returns a summary), the summary satisfies
`total_models = successful_models + failed_models`. -/
theorem count_models_total_eq_succ_add_failed (fp : String) (content : Option ReportData)
    (s : RunSummary) (h : count_models fp content = some s) :
    s.total_models = s.successful_models + s.failed_models := by
  cases content with
  | none => simp [count_models] at h
  | some data =>
    simp only [count_models, Option.some.injEq] at h
    subst h
    exact countRecords_total_eq (data.results.getD [])

theorem count_models_total_eq_succ_add_failed_witness :
    exampleSummary.total_models = exampleSummary.successful_models + exampleSummary.failed_models :=
  count_models_total_eq_succ_add_failed "f" (some exampleReport) exampleSummary
    count_models_exampleReport

/-- C2: a record enters the tally (counts and timing sample) iff its
`unique_id` starts with the exact case-sensitive `model.` tag: a
non-matching record leaves the loop state untouched, a matching one raises
the totals by one, and a results list with no matching identifier yields
`total_models = 0` and `success_rate = 0`. -/
theorem count_models_model_filter :
    (∀ (c : Counts) (r : ResultRecord),
      startswith (r.unique_id.getD "") "model." = false → processRecord c r = c)
    ∧ (∀ (c : Counts) (r : ResultRecord),
      startswith (r.unique_id.getD "") "model." = true →
        (processRecord c r).total = c.total + 1 ∧
        (processRecord c r).succ + (processRecord c r).failed = c.succ + c.failed + 1)
    ∧ (∀ (fp : String) (data : ReportData) (s : RunSummary),
      count_models fp (some data) = some s →
      (∀ x ∈ data.results.getD [], startswith (x.unique_id.getD "") "model." = false) →
      s.total_models = 0 ∧ s.success_rate = 0) := by
  refine ⟨processRecord_of_not_model, ?_, ?_⟩
  · intro c r h
    simp only [processRecord, h, if_true]
    constructor
    · split <;> split <;> rfl
    · split <;> split <;> simp <;> omega
  · intro fp data s h hno
    have hcr : countRecords (data.results.getD []) = ⟨0, 0, 0, []⟩ :=
      foldl_processRecord_of_no_model _ _ hno
    simp only [count_models, Option.some.injEq] at h
    subst h
    simp only [hcr]
    norm_num [pyRound, roundHalfEven]

theorem count_models_model_filter_witness :
    processRecord ⟨0, 0, 0, []⟩ ⟨some "test.t1", some "success", some 1⟩ = ⟨0, 0, 0, []⟩
    ∧ (processRecord ⟨0, 0, 0, []⟩ ⟨some "model.m1", some "success", some 1⟩).total = 0 + 1 :=
  ⟨count_models_model_filter.1 ⟨0, 0, 0, []⟩ ⟨some "test.t1", some "success", some 1⟩ (by decide),
   (count_models_model_filter.2.1 ⟨0, 0, 0, []⟩ ⟨some "model.m1", some "success", some 1⟩
      (by decide)).1⟩

/-- C3: a qualifying record is classified successful iff its status equals
exactly `success`; any other status, including an absent one (which reads
as `unknown`), increments `failed_models` instead. -/
theorem processRecord_status_classification (c : Counts) (r : ResultRecord)
    (h : startswith (r.unique_id.getD "") "model." = true) :
    (processRecord c r).succ = c.succ + (if r.status.getD "unknown" = "success" then 1 else 0)
    ∧ (processRecord c r).failed =
        c.failed + (if r.status.getD "unknown" = "success" then 0 else 1)
    ∧ (r.status = none → (processRecord c r).failed = c.failed + 1) := by
  simp only [processRecord, h, if_true]
  refine ⟨?_, ?_, ?_⟩
  · split <;> split <;> simp_all
  · split <;> split <;> simp_all
  · intro hnone
    rw [hnone]
    split <;> split <;> simp_all

theorem processRecord_status_classification_witness :
    (processRecord ⟨0, 0, 0, []⟩ ⟨some "model.m1", none, none⟩).succ =
      0 + (if ((none : Option String)).getD "unknown" = "success" then 1 else 0)
    ∧ (processRecord ⟨0, 0, 0, []⟩ ⟨some "model.m1", none, none⟩).failed =
      0 + (if ((none : Option String)).getD "unknown" = "success" then 0 else 1)
    ∧ ((none : Option String) = none →
      (processRecord ⟨0, 0, 0, []⟩ ⟨some "model.m1", none, none⟩).failed = 0 + 1) :=
  processRecord_status_classification ⟨0, 0, 0, []⟩ ⟨some "model.m1", none, none⟩ (by decide)

/-- C10: a record with no `unique_id` field reads its identifier as the
empty string, which does not start with `model.`, so the record is excluded
from every count and timing figure and no error is raised. -/
theorem processRecord_missing_unique_id (c : Counts) (r : ResultRecord)
    (h : r.unique_id = none) : processRecord c r = c := by
  apply processRecord_of_not_model
  rw [h]
  decide

theorem processRecord_missing_unique_id_witness :
    processRecord ⟨5, 3, 2, [1]⟩ ⟨none, some "success", some 2⟩ = ⟨5, 3, 2, [1]⟩ :=
  processRecord_missing_unique_id ⟨5, 3, 2, [1]⟩ ⟨none, some "success", some 2⟩ rfl

theorem roundHalfEven_ge_floor (x : ℚ) : ⌊x⌋ ≤ roundHalfEven x := by
  simp only [roundHalfEven]
  split_ifs <;> omega

theorem roundHalfEven_le_add_half (x : ℚ) : (roundHalfEven x : ℚ) ≤ x + 1/2 := by
  have hfl : (⌊x⌋ : ℚ) ≤ x := Int.floor_le x
  simp only [roundHalfEven]
  split_ifs with h1 h2 h3 <;> push_cast <;> linarith

theorem pyRound_zero (n : ℕ) : pyRound 0 n = 0 := by
  unfold pyRound roundHalfEven
  norm_num

theorem pyRound_nonneg (q : ℚ) (n : ℕ) (hq : 0 ≤ q) : 0 ≤ pyRound q n := by
  have hm : (0:ℚ) < (10:ℚ) ^ n := by positivity
  have hx : 0 ≤ q * (10:ℚ) ^ n := by positivity
  have h1 : (0:ℤ) ≤ ⌊q * (10:ℚ) ^ n⌋ := Int.floor_nonneg.mpr hx
  have h2 : (0:ℤ) ≤ roundHalfEven (q * (10:ℚ) ^ n) :=
    le_trans h1 (roundHalfEven_ge_floor _)
  unfold pyRound
  apply div_nonneg _ (le_of_lt hm)
  exact_mod_cast h2

theorem pyRound_le_nat (q : ℚ) (n M : ℕ) (h : q ≤ M) : pyRound q n ≤ M := by
  have hm : (0:ℚ) < (10:ℚ) ^ n := by positivity
  have hx : q * (10:ℚ) ^ n ≤ (M : ℚ) * (10:ℚ) ^ n :=
    mul_le_mul_of_nonneg_right h (le_of_lt hm)
  have h1 : (roundHalfEven (q * (10:ℚ) ^ n) : ℚ) ≤ (M : ℚ) * (10:ℚ) ^ n + 1/2 :=
    le_trans (roundHalfEven_le_add_half _) (by linarith)
  have h2 : (roundHalfEven (q * (10:ℚ) ^ n) : ℚ) < (((M : ℤ) * (10:ℤ) ^ n : ℤ) : ℚ) + 1 := by
    push_cast
    linarith
  have h3 : roundHalfEven (q * (10:ℚ) ^ n) < (M : ℤ) * (10:ℤ) ^ n + 1 := by
    exact_mod_cast h2
  have hint : roundHalfEven (q * (10:ℚ) ^ n) ≤ (M : ℤ) * (10:ℤ) ^ n :=
    Int.lt_add_one_iff.mp h3
  unfold pyRound
  rw [div_le_iff₀ hm]
  calc (roundHalfEven (q * (10:ℚ) ^ n) : ℚ) ≤ (((M : ℤ) * (10:ℤ) ^ n : ℤ) : ℚ) := by
        exact_mod_cast hint
    _ = (M : ℚ) * (10:ℚ) ^ n := by push_cast; ring

/-- C4: a qualifying record's execution time enters the timing sample iff
it is strictly positive (an absent time reads as 0 and is excluded), while
the record still counts toward the totals; `avg_execution_time` is the
rounded (3 decimals) mean of the sample and `total_execution_time` its
rounded sum; on the spec's worked example (times 1.0/2.0/0) this gives
total 3, successful 2, failed 1, avg 1.5, total time 3.0. -/
theorem execution_time_sampling :
    (∀ (c : Counts) (r : ResultRecord),
      startswith (r.unique_id.getD "") "model." = true →
        (processRecord c r).times =
          (if 0 < r.execution_time.getD 0 then c.times ++ [r.execution_time.getD 0]
           else c.times)
        ∧ (processRecord c r).total = c.total + 1
        ∧ (r.execution_time = none → (processRecord c r).times = c.times))
    ∧ (∀ (fp : String) (data : ReportData) (s : RunSummary),
      count_models fp (some data) = some s →
        s.avg_execution_time =
          pyRound (if (countRecords (data.results.getD [])).times.isEmpty then 0
            else (countRecords (data.results.getD [])).times.sum /
              ((countRecords (data.results.getD [])).times.length : ℚ)) 3
        ∧ s.total_execution_time = pyRound (countRecords (data.results.getD [])).times.sum 3)
    ∧ count_models "f" (some exampleReport) = some exampleSummary := by
  refine ⟨?_, ?_, count_models_exampleReport⟩
  · intro c r h
    refine ⟨?_, ?_, ?_⟩
    · simp only [processRecord, h, if_true]
      split <;> split <;> simp_all
    · simp only [processRecord, h, if_true]
      split <;> split <;> rfl
    · intro hnone
      simp only [processRecord, h, if_true, hnone, Option.getD_none, gt_iff_lt,
        lt_irrefl, if_false]
      split <;> rfl
  · intro fp data s h
    simp only [count_models, Option.some.injEq] at h
    subst h
    exact ⟨rfl, rfl⟩

theorem execution_time_sampling_witness :
    ((processRecord ⟨0, 0, 0, []⟩ ⟨some "model.m1", some "success", some (5/2)⟩).times =
        (if 0 < ((some ((5:ℚ)/2)).getD 0) then ([] : List ℚ) ++ [(some ((5:ℚ)/2)).getD 0]
         else ([] : List ℚ))
      ∧ (processRecord ⟨0, 0, 0, []⟩ ⟨some "model.m1", some "success", some (5/2)⟩).total = 0 + 1
      ∧ ((some ((5:ℚ)/2) : Option ℚ) = none →
          (processRecord ⟨0, 0, 0, []⟩ ⟨some "model.m1", some "success", some (5/2)⟩).times = []))
    ∧ exampleSummary.avg_execution_time =
        pyRound (if (countRecords (exampleReport.results.getD [])).times.isEmpty then 0
          else (countRecords (exampleReport.results.getD [])).times.sum /
            ((countRecords (exampleReport.results.getD [])).times.length : ℚ)) 3 :=
  ⟨execution_time_sampling.1 ⟨0, 0, 0, []⟩ ⟨some "model.m1", some "success", some (5/2)⟩
      (by decide),
   (execution_time_sampling.2.1 "f" exampleReport exampleSummary count_models_exampleReport).1⟩

/-- C5: in every summary `count_models` produces, `success_rate` is
`successful/total*100` rounded to 2 decimals when `total_models > 0`, is 0
when `total_models = 0` (the division is guarded), and always lies in
`[0, 100]`. -/
theorem success_rate_spec (fp : String) (content : Option ReportData)
    (s : RunSummary) (h : count_models fp content = some s) :
    (s.total_models ≠ 0 →
      s.success_rate = pyRound ((s.successful_models : ℚ) / (s.total_models : ℚ) * 100) 2)
    ∧ (s.total_models = 0 → s.success_rate = 0)
    ∧ 0 ≤ s.success_rate ∧ s.success_rate ≤ 100 := by
  cases content with
  | none => simp [count_models] at h
  | some data =>
    simp only [count_models, Option.some.injEq] at h
    subst h
    dsimp only
    have hle := countRecords_succ_le_total (data.results.getD [])
    set c := countRecords (data.results.getD []) with hc
    have hrate : ∀ ht : 0 < c.total,
        0 ≤ (c.succ : ℚ) / (c.total : ℚ) * 100 ∧ (c.succ : ℚ) / (c.total : ℚ) * 100 ≤ 100 := by
      intro ht
      have htq : (0:ℚ) < (c.total : ℚ) := by exact_mod_cast ht
      constructor
      · positivity
      · have h1 : (c.succ : ℚ) / (c.total : ℚ) ≤ 1 := by
          rw [div_le_one htq]
          exact_mod_cast hle
        linarith
    refine ⟨?_, ?_, ?_, ?_⟩
    · intro hne
      rw [if_pos (Nat.pos_of_ne_zero hne)]
    · intro h0
      rw [if_neg (by omega), pyRound_zero]
    · by_cases ht : 0 < c.total
      · rw [if_pos ht]
        exact pyRound_nonneg _ _ (hrate ht).1
      · rw [if_neg ht, pyRound_zero]
    · by_cases ht : 0 < c.total
      · rw [if_pos ht]
        have := pyRound_le_nat ((c.succ : ℚ) / (c.total : ℚ) * 100) 2 100 (by
          exact_mod_cast (hrate ht).2)
        exact_mod_cast this
      · rw [if_neg ht, pyRound_zero]
        norm_num

theorem success_rate_spec_witness :
    (exampleSummary.total_models ≠ 0 →
      exampleSummary.success_rate =
        pyRound ((exampleSummary.successful_models : ℚ) /
          (exampleSummary.total_models : ℚ) * 100) 2)
    ∧ (exampleSummary.total_models = 0 → exampleSummary.success_rate = 0)
    ∧ 0 ≤ exampleSummary.success_rate ∧ exampleSummary.success_rate ≤ 100 :=
  success_rate_spec "f" (some exampleReport) exampleSummary count_models_exampleReport

/-- C6: `run_date` comes from parsing `generated_at` as an ISO-8601
datetime with a trailing `Z` rewritten to `+00:00` and taking its calendar
date (`2024-01-15T10:30:00Z` gives `2024-01-15`); the `unknown` sentinel is
skipped, a parse failure falls back to `unknown`, and an absent
`generated_at` reads as the sentinel — `count_models` always returns a
summary carrying this total derivation, so the failure never escapes. -/
theorem run_date_derivation :
    run_date_of "2024-01-15T10:30:00Z" = "2024-01-15"
    ∧ run_date_of "unknown" = "unknown"
    ∧ (∀ s : String,
        fromisoformat (String.mk (replaceChar 'Z' "+00:00".toList s.toList)) = none →
        run_date_of s = "unknown")
    ∧ (∀ (s : String) (d : PyDate), s ≠ "unknown" →
        fromisoformat (String.mk (replaceChar 'Z' "+00:00".toList s.toList)) = some d →
        run_date_of s = dateIsoformat d)
    ∧ (∀ (fp : String) (data : ReportData) (su : RunSummary),
        count_models fp (some data) = some su →
        su.run_date =
          run_date_of ((data.metadata.getD ⟨none, none, none⟩).generated_at.getD "unknown")) := by
  refine ⟨by decide, rfl, ?_, ?_, ?_⟩
  · intro s hnone
    unfold run_date_of
    split
    · rw [hnone]
    · rfl
  · intro s d hne hsome
    unfold run_date_of
    rw [if_pos hne, hsome]
  · intro fp data su h
    simp only [count_models, Option.some.injEq] at h
    subst h
    rfl

theorem run_date_derivation_witness :
    run_date_of "not-a-date" = "unknown"
    ∧ run_date_of "2024-02-30T00:00:00Z" = "unknown"
    ∧ exampleSummary.run_date =
        run_date_of ((exampleReport.metadata.getD ⟨none, none, none⟩).generated_at.getD
          "unknown") :=
  ⟨run_date_derivation.2.2.1 "not-a-date" (by decide),
   run_date_derivation.2.2.1 "2024-02-30T00:00:00Z" (by decide),
   run_date_derivation.2.2.2.2 "f" exampleReport exampleSummary count_models_exampleReport⟩

/-- C7: on a directory, discovery returns exactly the union of the three
glob patterns' matches, with duplicates removed and the result in
lexicographically sorted order; on the spec's two-file example both
`run_results.json` and `run_results_old.json` appear once each, sorted. -/
theorem find_run_results_files_dir_spec :
    (∀ (path : String) (entries : List String),
      (find_run_results_files path .directory entries).Sorted (· ≤ ·)
      ∧ (find_run_results_files path .directory entries).Nodup
      ∧ (∀ x, x ∈ find_run_results_files path .directory entries ↔
          x ∈ (entries.filter matchesPattern1 ++ entries.filter matchesPattern2 ++
            entries.filter matchesPattern3).map (joinPath path)))
    ∧ find_run_results_files "logs" .directory ["run_results.json", "run_results_old.json"] =
        ["logs/run_results.json", "logs/run_results_old.json"] := by
  constructor
  · intro path entries
    refine ⟨List.sorted_insertionSort _ _, ?_, ?_⟩
    · exact (List.perm_insertionSort _ _).nodup_iff.mpr (List.nodup_dedup _)
    · intro x
      rw [show find_run_results_files path .directory entries =
          List.insertionSort (· ≤ ·)
            ((entries.filter matchesPattern1 ++ entries.filter matchesPattern2 ++
              entries.filter matchesPattern3).map (joinPath path)).dedup from rfl]
      rw [(List.perm_insertionSort _ _).mem_iff, List.mem_dedup]
  · have hd : ((["run_results.json", "run_results_old.json"].filter matchesPattern1 ++
        ["run_results.json", "run_results_old.json"].filter matchesPattern2 ++
        ["run_results.json", "run_results_old.json"].filter matchesPattern3).map
          (joinPath "logs")).dedup =
        ["logs/run_results.json", "logs/run_results_old.json"] := by decide
    have hle : ("logs/run_results.json" : String) ≤ "logs/run_results_old.json" := by
      rw [String.le_iff_toList_le]
      decide
    have hj1 : joinPath "logs" "run_results.json" = "logs/run_results.json" := rfl
    have hj2 : joinPath "logs" "run_results_old.json" = "logs/run_results_old.json" := rfl
    simp only [find_run_results_files, hd, List.insertionSort, List.orderedInsert, hj1, hj2,
      if_pos hle]

/-- C8: the process exits non-zero exactly when discovery returned no files
or no discovered file yielded a summary; the two failure branches print
distinct messages, and otherwise the exit status is zero. -/
theorem main_exit_behavior (files : List String) (read : String → Option ReportData) :
    (exitCode (mainOutcome files read) ≠ 0 ↔
      files = [] ∨ ∀ fp ∈ files, count_models fp (read fp) = none)
    ∧ (files = [] → mainOutcome files read = .noFilesFound)
    ∧ (files ≠ [] → (∀ fp ∈ files, count_models fp (read fp) = none) →
        mainOutcome files read = .noValidFiles)
    ∧ outcomeMessage MainOutcome.noFilesFound ≠ outcomeMessage MainOutcome.noValidFiles := by
  have hempty : processFiles files read = [] ↔
      ∀ fp ∈ files, count_models fp (read fp) = none := by
    simp [processFiles, List.filterMap_eq_nil_iff]
  refine ⟨?_, ?_, ?_, by simp [outcomeMessage]⟩
  · unfold mainOutcome exitCode
    rcases hf : files.isEmpty with _ | _
    · have hne : files ≠ [] := by simpa [List.isEmpty_iff] using hf
      simp only [hf, Bool.false_eq_true, if_false]
      rcases hp : (processFiles files read).isEmpty with _ | _
      · have hpne : processFiles files read ≠ [] := by simpa [List.isEmpty_iff] using hp
        simp only [hp, Bool.false_eq_true, if_false]
        constructor
        · intro h0
          exact absurd rfl h0
        · rintro (h | h)
          · exact absurd h hne
          · exact absurd (hempty.mpr h) hpne
      · have hpe : processFiles files read = [] := by simpa [List.isEmpty_iff] using hp
        simp only [hp, if_true]
        constructor
        · intro _
          exact Or.inr (hempty.mp hpe)
        · intro _
          exact one_ne_zero
    · have he : files = [] := by simpa [List.isEmpty_iff] using hf
      simp only [hf, if_true]
      constructor
      · intro _
        exact Or.inl he
      · intro _
        exact one_ne_zero
  · intro he
    simp [mainOutcome, he]
  · intro hne hall
    have hpe : processFiles files read = [] := hempty.mpr hall
    simp [mainOutcome, hne, hpe, List.isEmpty_iff]

theorem main_exit_behavior_witness :
    mainOutcome [] (fun _ => none) = MainOutcome.noFilesFound
    ∧ mainOutcome ["a"] (fun _ => none) = MainOutcome.noValidFiles
    ∧ (exitCode (mainOutcome ["a"] (fun _ => none)) ≠ 0 ↔
        (["a"] : List String) = [] ∨
          ∀ fp ∈ (["a"] : List String), count_models fp ((fun _ => none) fp) = none) :=
  ⟨(main_exit_behavior [] (fun _ => none)).2.1 rfl,
   (main_exit_behavior ["a"] (fun _ => none)).2.2.1 (by simp) (fun fp _ => rfl),
   (main_exit_behavior ["a"] (fun _ => none)).1⟩

/-- C9: a file whose read or parse fails makes `count_models` return no
summary instead of raising, and such a failure is isolated: the summaries
collected by `main` over a file list containing the bad file are exactly
those of the other files, in order. -/
theorem per_file_failure_isolation (fp : String) (xs ys : List String)
    (read : String → Option ReportData) (h : read fp = none) :
    count_models fp (read fp) = none
    ∧ processFiles (xs ++ fp :: ys) read = processFiles xs read ++ processFiles ys read := by
  constructor
  · rw [h]
    rfl
  · simp [processFiles, List.filterMap_append, List.filterMap_cons, h, count_models]

theorem per_file_failure_isolation_witness :
    count_models "bad" ((fun _ => (none : Option ReportData)) "bad") = none
    ∧ processFiles (["good"] ++ "bad" :: []) (fun _ => (none : Option ReportData)) =
        processFiles ["good"] (fun _ => (none : Option ReportData)) ++
          processFiles [] (fun _ => (none : Option ReportData)) :=
  per_file_failure_isolation "bad" ["good"] [] (fun _ => none) rfl

end SimpleModelCounter
